import Mathlib

/-!
Shallow embedding of the `claude-dispatcher` program (`src/index.ts`,
`scripts/fetch-task.js`) for specification checking.

The program is a single-run dispatcher: it validates environment
configuration, queries an issue tracker (Linear) for eligible issues,
selects the highest-priority one, formats a chat (Slack) message, posts
it, and acknowledges the issue in the tracker (optional workflow-state
transition plus a dispatch comment).

Modelling conventions:
- JavaScript strings are modelled as Lean `String`; the JavaScript
  operations the code uses (`length`, `substring(0, n)`, `split(",")`,
  `toLowerCase()`, `includes`) are modelled at character granularity by
  the `js*`-named helpers below.
- External API calls are modelled as events appended to a trace, with a
  `World` record supplying each call's response and success flag.  A
  thrown JavaScript error is modelled as `Except.error`, which aborts
  the remainder of the run exactly as an uncaught exception does.
- `console.log` output is collected in a separate `logs` list.
-/

namespace ClaudeDispatcher

/-- Character-level model of JavaScript `s.length`. -/
def jsLength (s : String) : Nat := s.data.length

/-- Character-level model of JavaScript `s.substring(0, n)`. -/
def jsTake (s : String) (n : Nat) : String := String.mk (s.data.take n)

/-- Helper for `jsSplitComma`: accumulates the current token (reversed). -/
def splitCommaAux : List Char → List Char → List String
  | [], acc => [String.mk acc.reverse]
  | c :: cs, acc =>
    if c = ',' then String.mk acc.reverse :: splitCommaAux cs []
    else splitCommaAux cs (c :: acc)

/-- Character-level model of JavaScript `s.split(",")`: e.g. the empty
string yields `[""]` and `"a,,b"` yields `["a", "", "b"]`. -/
def jsSplitComma (s : String) : List String := splitCommaAux s.data []

/-- ASCII model of JavaScript `s.toLowerCase()` (the only use site
matches against the ASCII word "progress"). -/
def jsToLowerCase (s : String) : String := String.mk (s.data.map Char.toLower)

/-- Boolean check that `sub` occurs as a contiguous substring of `s`:
model of JavaScript `s.includes(sub)`. -/
def jsIncludes (s sub : String) : Bool := decide (sub.data <:+: s.data)

/-! ## Data model (tracker entities, `src/index.ts` interface `LinearIssue`) -/

/-- A tracker project, as used by the dispatcher (`project.id` in the
query filter, `project.name` in the message). -/
structure Project where
  id : String
  name : String
deriving DecidableEq, Repr

/-- A tracker team, as used by the dispatcher (`team.key` in the query
filter and message, `team.name` in logs). -/
structure Team where
  key : String
  name : String
deriving DecidableEq, Repr

/-- A tracker issue as the dispatcher sees it: the fields of the
`LinearIssue` interface, plus the workflow-state category and assignee
that the tracker-side query filter constrains.  `description` is
`Option String` (JavaScript `string | undefined`); the related project
and team are carried as data (the SDK's lazy resolution of them is
modelled by `resolve*` trace events in the run model below). -/
structure Issue where
  id : String
  identifier : String
  title : String
  description : Option String
  priority : Nat
  url : String
  branchName : String
  stateType : String
  assignee : Option String
  project : Option Project
  team : Option Team
deriving DecidableEq, Repr

/-- A workflow state of a team (`team.states()` nodes): id, name and
category (`s.type` in the source). -/
structure WorkflowState where
  id : String
  name : String
  stype : String
deriving DecidableEq, Repr

/-- A team as re-read during acknowledgment, together with its workflow
states (`issue.team` then `team.states()` in `markIssueAsDispatched`). -/
structure TeamWithStates where
  id : String
  states : List WorkflowState
deriving DecidableEq, Repr

/-! ## Configuration (`CONFIG`, `validateConfig`) -/

/-- The raw environment: `process.env.X` is `Option String` (absent =
`none`). -/
structure Env where
  LINEAR_API_KEY : Option String
  SLACK_USER_TOKEN : Option String
  SLACK_CHANNEL_ID : Option String
  CLAUDE_USER_ID : Option String
  LINEAR_PROJECT_IDS : Option String
  LINEAR_TEAM_KEYS : Option String
deriving DecidableEq, Repr

/-- The resolved `CONFIG` object. -/
structure Config where
  LINEAR_API_KEY : String
  SLACK_USER_TOKEN : String
  SLACK_CHANNEL_ID : String
  CLAUDE_USER_ID : String
  LINEAR_PROJECT_IDS : List String
  LINEAR_TEAM_KEYS : List String
deriving DecidableEq, Repr

/-- Model of `process.env.X?.split(",").filter(Boolean) || []`: an
absent setting yields `[]`; a present one is split on commas and the
empty tokens are dropped. -/
def parseListEnv : Option String → List String
  | none => []
  | some s => (jsSplitComma s).filter (fun t => t != "")

/-- Model of the `CONFIG` initializer: `process.env.X || ""` for the
string settings, `parseListEnv` for the two list settings. -/
def loadConfig (e : Env) : Config :=
  { LINEAR_API_KEY := e.LINEAR_API_KEY.getD ""
    SLACK_USER_TOKEN := e.SLACK_USER_TOKEN.getD ""
    SLACK_CHANNEL_ID := e.SLACK_CHANNEL_ID.getD ""
    CLAUDE_USER_ID := e.CLAUDE_USER_ID.getD ""
    LINEAR_PROJECT_IDS := parseListEnv e.LINEAR_PROJECT_IDS
    LINEAR_TEAM_KEYS := parseListEnv e.LINEAR_TEAM_KEYS }

/-- The `required` key list in `validateConfig`. -/
def requiredConfigKeys : List String :=
  ["LINEAR_API_KEY", "SLACK_USER_TOKEN", "SLACK_CHANNEL_ID", "CLAUDE_USER_ID"]

/-- String-keyed lookup `CONFIG[key]` for the required (string-valued)
keys. -/
def configValue (c : Config) : String → String
  | "LINEAR_API_KEY" => c.LINEAR_API_KEY
  | "SLACK_USER_TOKEN" => c.SLACK_USER_TOKEN
  | "SLACK_CHANNEL_ID" => c.SLACK_CHANNEL_ID
  | "CLAUDE_USER_ID" => c.CLAUDE_USER_ID
  | _ => ""

/-- `required.filter((key) => !CONFIG[key])`: the required keys whose
value is empty (JavaScript falsy for strings). -/
def missingKeys (c : Config) : List String :=
  requiredConfigKeys.filter (fun k => configValue c k == "")

/-- Model of `validateConfig`: throws (returns `Except.error`) with a
message enumerating the missing keys when any required value is empty. -/
def validateConfig (c : Config) : Except String Unit :=
  let missing := missingKeys c
  if missing.length > 0 then
    Except.error ("Missing required environment variables: " ++ String.intercalate ", " missing)
  else
    Except.ok ()

/-! ## Task selection (`getHighestPriorityTask`, `fetchHighestPriorityTask`) -/

/-- The structured query filter sent to the tracker.  `projectIds` and
`teamKeys` are `none` when the corresponding clause is not added. -/
structure IssueFilter where
  stateTypes : List String
  assigneeNull : Bool
  priorityNeq : Nat
  projectIds : Option (List String)
  teamKeys : Option (List String)
deriving DecidableEq, Repr

/-- Model of the filter construction in `getHighestPriorityTask` (and,
identically, in `scripts/fetch-task.js`): project and team clauses are
added only when the configured allow-list is non-empty. -/
def buildFilter (c : Config) : IssueFilter :=
  { stateTypes := ["backlog", "unstarted", "started"]
    assigneeNull := true
    priorityNeq := 0
    projectIds := if c.LINEAR_PROJECT_IDS.length > 0 then some c.LINEAR_PROJECT_IDS else none
    teamKeys := if c.LINEAR_TEAM_KEYS.length > 0 then some c.LINEAR_TEAM_KEYS else none }

/-- Semantics of the tracker-side filter: which issues match the query.
Used to state that fetched batches consist of matching issues. -/
def matchesFilter (f : IssueFilter) (i : Issue) : Bool :=
  f.stateTypes.contains i.stateType &&
  (!f.assigneeNull || i.assignee == none) &&
  (i.priority != f.priorityNeq) &&
  (match f.projectIds with
   | none => true
   | some ps =>
     match i.project with
     | some p => ps.contains p.id
     | none => false) &&
  (match f.teamKeys with
   | none => true
   | some ks =>
     match i.team with
     | some t => ks.contains t.key
     | none => false)

/-- Stable insertion used by `stableSortBy`: the inserted element comes
from earlier in the original list than everything already inserted, so
it is placed before the first element whose key is not smaller. -/
def insertIssue (key : Issue → Nat) (x : Issue) : List Issue → List Issue
  | [] => [x]
  | y :: ys => if key x ≤ key y then x :: y :: ys else y :: insertIssue key x ys

/-- Stable sort by a numeric key.  JavaScript `Array.prototype.sort`
with comparator `(a, b) => a.priority - b.priority` is a stable sort by
ascending priority (ECMAScript requires sort stability); a stable sort
by a total preorder has a unique result, realized here by insertion
sort. -/
def stableSortBy (key : Issue → Nat) (l : List Issue) : List Issue :=
  l.foldr (insertIssue key) []

/-- The sort key the source comparator uses: the raw priority ordinal. -/
def priorityKey (i : Issue) : Nat := i.priority

/-- Model of the pure selection in `getHighestPriorityTask` applied to
the fetched batch `issues.nodes`: `null` for an empty batch, otherwise
the head of the batch stable-sorted by ascending priority. -/
def getHighestPriorityTask (batch : List Issue) : Option Issue :=
  if batch.isEmpty then none
  else (stableSortBy priorityKey batch).head?

/-- The first element of the list attaining the minimal key (ties go to
the earlier element).  Used to characterize the head of `stableSortBy`. -/
def firstMinBy (key : Issue → Nat) (l : List Issue) : Option Issue :=
  l.foldr
    (fun a acc =>
      match acc with
      | none => some a
      | some b => if key a ≤ key b then some a else some b)
    none

/-- Sort key taken from the specification text: ordinal 0 (unset) is
treated as equivalent to ordinal 5, so it sorts after all set
priorities.  This is the spec-side definition, to be compared with the
source-side `priorityKey` sort. -/
def specSortKey (i : Issue) : Nat := if i.priority = 0 then 5 else i.priority

/-! ## Message composition (`formatSlackMessage`) -/

/-- The fixed description-length cap (`maxDescLength`). -/
def maxDescLength : Nat := 2000

/-- Model of `formatSlackMessage`: mention, optional project/team
qualifiers, identifier and title, optional (truncated) description, and
the branch-name instruction. -/
def formatSlackMessage (claudeUserId : String) (issue : Issue) : String :=
  let projectInfo :=
    match issue.project with
    | some p => " in project \"" ++ p.name ++ "\""
    | none => ""
  let teamInfo :=
    match issue.team with
    | some t => " [" ++ t.key ++ "]"
    | none => ""
  let message := "<@" ++ claudeUserId ++ ">" ++ projectInfo ++ teamInfo ++
    ", work on " ++ issue.identifier ++ ": " ++ issue.title
  let message :=
    match issue.description with
    | some d =>
      if d != "" then
        let desc := if jsLength d > maxDescLength then jsTake d maxDescLength ++ "..." else d
        message ++ "\n\n" ++ desc
      else message
    | none => message
  message ++ "\n\nIMPORTANT: You MUST name the git branch exactly: " ++ issue.branchName

/-- The part of the composed message before the description block. -/
def messageHeader (claudeUserId : String) (issue : Issue) : String :=
  let projectInfo :=
    match issue.project with
    | some p => " in project \"" ++ p.name ++ "\""
    | none => ""
  let teamInfo :=
    match issue.team with
    | some t => " [" ++ t.key ++ "]"
    | none => ""
  "<@" ++ claudeUserId ++ ">" ++ projectInfo ++ teamInfo ++
    ", work on " ++ issue.identifier ++ ": " ++ issue.title

/-- The fixed trailing instruction of the composed message. -/
def messageFooter (issue : Issue) : String :=
  "\n\nIMPORTANT: You MUST name the git branch exactly: " ++ issue.branchName

/-! ## Run model (external calls as a trace of events) -/

/-- One external API call made during a run.  `updateIssue` and
`createComment` are the only tracker writes; everything else is a read
or the chat post. -/
inductive Event where
  | issuesQuery (f : IssueFilter)
  | resolveProject (issueId : String)
  | resolveTeam (issueId : String)
  | chatPost (channel : String) (text : String)
  | readIssue (issueId : String)
  | readIssueTeam (issueId : String)
  | readTeamStates (teamId : String)
  | updateIssue (issueId : String) (stateId : String)
  | createComment (issueId : String) (body : String)
deriving DecidableEq, Repr

/-- Is this event the chat post (`slackClient.chat.postMessage`)? -/
def Event.isChatPost : Event → Bool
  | .chatPost _ _ => true
  | _ => false

/-- Is this event a comment creation (`linearClient.createComment`)? -/
def Event.isComment : Event → Bool
  | .createComment _ _ => true
  | _ => false

/-- Is this event a tracker write (state update or comment creation)? -/
def Event.isWrite : Event → Bool
  | .updateIssue _ _ => true
  | .createComment _ _ => true
  | _ => false

/-- Scanning the trace left to right: no tracker-write event occurs
before the first chat-post event. -/
def noWriteBeforePost : List Event → Bool
  | [] => true
  | e :: rest => if e.isChatPost then true else !e.isWrite && noWriteBeforePost rest

/-- The environment's behaviour for one run: the batch the tracker
returns for the query, the data returned by the acknowledgment-phase
reads, and a success flag for every external call (a `false` flag makes
the call throw). -/
structure World where
  batch : List Issue
  queryOk : Bool
  resolveOk : Bool
  slackOk : Bool
  readIssueOk : Bool
  readTeamOk : Bool
  dispatchTeam : Option TeamWithStates
  statesOk : Bool
  updateOk : Bool
  commentOk : Bool
deriving DecidableEq, Repr

instance : DecidableEq (Except String Unit) := fun a b =>
  match a, b with
  | Except.ok _, Except.ok _ => isTrue rfl
  | Except.error x, Except.error y =>
    if h : x = y then isTrue (by rw [h])
    else isFalse (by intro hc; injection hc; contradiction)
  | Except.ok _, Except.error _ => isFalse (by intro hc; exact Except.noConfusion hc)
  | Except.error _, Except.ok _ => isFalse (by intro hc; exact Except.noConfusion hc)

/-- The observable result of one run: API-call trace, `console.log`
lines, and the outcome (`Except.error` models an uncaught exception). -/
structure RunResult where
  trace : List Event
  logs : List String
  outcome : Except String Unit
deriving Repr

/-- The fixed dispatch marker: the body of the comment written on
acknowledgment. -/
def dispatchMarker : String := "🤖 Task dispatched to Claude via Slack"

/-- Model of `postToSlack`: posts the composed message to the
configured channel, and throws if the chat call fails.  Returns the
events and log lines this call contributes. -/
def postToSlack (cfg : Config) (w : World) (message : String) :
    List Event × List String × Except String Unit :=
  let lg := ["Posting to Slack..."]
  let tr := [Event.chatPost cfg.SLACK_CHANNEL_ID message]
  if w.slackOk then (tr, lg ++ ["Message posted to Slack successfully"], Except.ok ())
  else (tr, lg, Except.error "ChatApiError")

/-- The in-progress-state search in `markIssueAsDispatched`: a
started-category state whose lowercased name includes "progress",
falling back to any started-category state. -/
def inProgressStateOf (team : TeamWithStates) : Option WorkflowState :=
  match team.states.find? (fun s => s.stype == "started" && jsIncludes (jsToLowerCase s.name) "progress") with
  | some s => some s
  | none => team.states.find? (fun s => s.stype == "started")

/-- Model of `markIssueAsDispatched`: re-read the issue and its team;
if the team is present, list its states and, if an in-progress state is
found, update the issue's state; then create the dispatch comment.  The
steps run sequentially with no error isolation: any throw aborts the
rest.  Returns the events and log lines this call contributes. -/
def markIssueAsDispatched (w : World) (issueId : String) :
    List Event × List String × Except String Unit :=
  let lg := ["Marking issue as In Progress..."]
  let tr := [Event.readIssue issueId]
  if !w.readIssueOk then (tr, lg, Except.error "TrackerApiError") else
  let tr := tr ++ [Event.readIssueTeam issueId]
  if !w.readTeamOk then (tr, lg, Except.error "TrackerApiError") else
  let afterState : List Event × List String × Except String Unit :=
    match w.dispatchTeam with
    | none => (tr, lg, Except.ok ())
    | some team =>
      let tr := tr ++ [Event.readTeamStates team.id]
      if !w.statesOk then (tr, lg, Except.error "TrackerApiError") else
      match inProgressStateOf team with
      | none => (tr, lg, Except.ok ())
      | some st =>
        let tr := tr ++ [Event.updateIssue issueId st.id]
        if !w.updateOk then (tr, lg, Except.error "TrackerApiError")
        else (tr, lg ++ ["Issue state updated to: " ++ st.name], Except.ok ())
  match afterState with
  | (tr, lg, Except.error e) => (tr, lg, Except.error e)
  | (tr, lg, Except.ok _) =>
    let tr := tr ++ [Event.createComment issueId dispatchMarker]
    if !w.commentOk then (tr, lg, Except.error "TrackerApiError")
    else (tr, lg ++ ["Dispatch comment added to Linear issue"], Except.ok ())

/-- A line of `n` repetitions of a character (`"=".repeat(50)` etc.). -/
def repeatChar (c : Char) (n : Nat) : String := String.mk (List.replicate n c)

/-- Model of `dispatch`: validate the configuration, query the tracker,
select the top task, resolve its project and team, compose and post the
chat message, then acknowledge the issue.  Any throw aborts the run and
is reported as `Except.error` (`process.exit(1)` at top level). -/
def dispatch (cfg : Config) (w : World) : RunResult :=
  let lg := [repeatChar '=' 50, "Linear → Slack → Claude Dispatcher", repeatChar '=' 50]
  match validateConfig cfg with
  | Except.error m => { trace := [], logs := lg, outcome := Except.error m }
  | Except.ok _ =>
    let lg := lg ++ ["Fetching tasks from Linear..."]
    let tr : List Event := [Event.issuesQuery (buildFilter cfg)]
    if !w.queryOk then { trace := tr, logs := lg, outcome := Except.error "TrackerApiError" } else
    match getHighestPriorityTask w.batch with
    | none =>
      { trace := tr
        logs := lg ++ ["No matching tasks found in Linear", "\nNo tasks to dispatch."]
        outcome := Except.ok () }
    | some task =>
      let tr := tr ++ [Event.resolveProject task.id, Event.resolveTeam task.id]
      if !w.resolveOk then { trace := tr, logs := lg, outcome := Except.error "TrackerApiError" } else
      let lg := lg ++
        ["\nFound task: " ++ task.identifier ++ " - " ++ task.title,
         "Priority: " ++ (if task.priority = 0 then "None" else toString task.priority),
         "Project: " ++ (match task.project with | some p => p.name | none => "None"),
         "Team: " ++ (match task.team with | some t => t.name | none => "None")]
      let message := formatSlackMessage cfg.CLAUDE_USER_ID task
      let lg := lg ++ ["\nMessage to post:", repeatChar '-' 40, message, repeatChar '-' 40]
      match postToSlack cfg w message with
      | (trS, lgS, Except.error e) =>
        { trace := tr ++ trS, logs := lg ++ lgS, outcome := Except.error e }
      | (trS, lgS, Except.ok _) =>
        match markIssueAsDispatched w task.id with
        | (trM, lgM, Except.error e) =>
          { trace := tr ++ trS ++ trM, logs := lg ++ lgS ++ lgM, outcome := Except.error e }
        | (trM, lgM, Except.ok _) =>
          { trace := tr ++ trS ++ trM
            logs := lg ++ lgS ++ lgM ++ ["\n✅ Task dispatched successfully!"]
            outcome := Except.ok () }

/-- Process exit status: `dispatch().catch(... process.exit(1))`. -/
def exitCode (r : RunResult) : Nat :=
  match r.outcome with
  | Except.ok _ => 0
  | Except.error _ => 1

/-! ## Lemmas about the stable sort and selection -/

theorem stableSortBy_cons (key : Issue → Nat) (a : Issue) (l : List Issue) :
    stableSortBy key (a :: l) = insertIssue key a (stableSortBy key l) := rfl

theorem insertIssue_ne_nil (key : Issue → Nat) (x : Issue) (l : List Issue) :
    insertIssue key x l ≠ [] := by
  cases l with
  | nil => simp [insertIssue]
  | cons y ys => simp only [insertIssue]; split <;> simp

theorem stableSortBy_eq_nil_iff (key : Issue → Nat) (l : List Issue) :
    stableSortBy key l = [] ↔ l = [] := by
  induction l with
  | nil => simp [stableSortBy]
  | cons a l _ =>
    rw [stableSortBy_cons]
    simp only [List.cons_ne_nil, iff_false]
    exact insertIssue_ne_nil key a _

theorem mem_insertIssue (key : Issue → Nat) (x y : Issue) (l : List Issue) :
    y ∈ insertIssue key x l ↔ y = x ∨ y ∈ l := by
  induction l with
  | nil => simp [insertIssue]
  | cons z zs ih =>
    simp only [insertIssue]
    split
    · simp
    · simp only [List.mem_cons, ih]
      tauto

theorem mem_stableSortBy (key : Issue → Nat) (x : Issue) (l : List Issue) :
    x ∈ stableSortBy key l ↔ x ∈ l := by
  induction l with
  | nil => simp [stableSortBy]
  | cons a l ih =>
    rw [stableSortBy_cons]
    simp [mem_insertIssue, ih]

theorem firstMinBy_cons (key : Issue → Nat) (a : Issue) (l : List Issue) :
    firstMinBy key (a :: l) =
      match firstMinBy key l with
      | none => some a
      | some b => if key a ≤ key b then some a else some b := rfl

theorem firstMinBy_eq_none_iff (key : Issue → Nat) (l : List Issue) :
    firstMinBy key l = none ↔ l = [] := by
  cases l with
  | nil => simp [firstMinBy]
  | cons a l =>
    rw [firstMinBy_cons]
    rcases h : firstMinBy key l with _ | b
    · simp
    · simp only [List.cons_ne_nil, iff_false]
      split <;> simp

theorem head?_insertIssue (key : Issue → Nat) (x : Issue) (l : List Issue) :
    (insertIssue key x l).head? =
      match l.head? with
      | none => some x
      | some y => if key x ≤ key y then some x else some y := by
  cases l with
  | nil => rfl
  | cons y ys =>
    simp only [insertIssue, List.head?_cons]
    split <;> simp

theorem head?_stableSortBy (key : Issue → Nat) (l : List Issue) :
    (stableSortBy key l).head? = firstMinBy key l := by
  induction l with
  | nil => rfl
  | cons a l ih =>
    rw [stableSortBy_cons, head?_insertIssue, firstMinBy_cons, ← ih]

theorem firstMinBy_mem_min (key : Issue → Nat) (l : List Issue) :
    ∀ x, firstMinBy key l = some x → x ∈ l ∧ ∀ y ∈ l, key x ≤ key y := by
  induction l with
  | nil => simp [firstMinBy]
  | cons a l ih =>
    intro x hx
    rw [firstMinBy_cons] at hx
    rcases h : firstMinBy key l with _ | b
    · have hl : l = [] := (firstMinBy_eq_none_iff key l).mp h
      subst hl
      rw [h] at hx
      simp only at hx
      injection hx with hx
      subst hx
      simp
    · rw [h] at hx
      obtain ⟨hbmem, hbmin⟩ := ih b h
      simp only at hx
      split at hx
      · rename_i hab
        injection hx with hx
        subst hx
        refine ⟨List.mem_cons_self _ _, ?_⟩
        intro y hy
        rcases List.mem_cons.mp hy with hy | hy
        · subst hy; exact le_refl _
        · exact le_trans hab (hbmin y hy)
      · rename_i hab
        injection hx with hx
        subst hx
        refine ⟨List.mem_cons_of_mem _ hbmem, ?_⟩
        intro y hy
        rcases List.mem_cons.mp hy with hy | hy
        · subst hy; exact le_of_lt (not_le.mp hab)
        · exact hbmin y hy

theorem firstMinBy_find? (key : Issue → Nat) (l : List Issue) :
    ∀ x, firstMinBy key l = some x →
      l.find? (fun y => decide (key y ≤ key x)) = some x := by
  induction l with
  | nil => simp [firstMinBy]
  | cons a l ih =>
    intro x hx
    rw [firstMinBy_cons] at hx
    rcases h : firstMinBy key l with _ | b
    · have hl : l = [] := (firstMinBy_eq_none_iff key l).mp h
      subst hl
      rw [h] at hx
      simp only at hx
      injection hx with hx
      subst hx
      simp
    · rw [h] at hx
      simp only at hx
      split at hx
      · rename_i hab
        injection hx with hx
        subst hx
        simp
      · rename_i hab
        injection hx with hx
        subst hx
        rw [List.find?_cons_of_neg _ (by simpa using hab)]
        exact ih b h

theorem insertIssue_congr (key1 key2 : Issue → Nat) (x : Issue) (l : List Issue)
    (hx : key1 x = key2 x) (hl : ∀ y ∈ l, key1 y = key2 y) :
    insertIssue key1 x l = insertIssue key2 x l := by
  induction l with
  | nil => rfl
  | cons y ys ih =>
    simp only [insertIssue]
    rw [hx, hl y (List.mem_cons_self _ _)]
    split
    · rfl
    · rw [ih (fun z hz => hl z (List.mem_cons_of_mem _ hz))]

theorem stableSortBy_congr (key1 key2 : Issue → Nat) (l : List Issue)
    (hl : ∀ y ∈ l, key1 y = key2 y) :
    stableSortBy key1 l = stableSortBy key2 l := by
  induction l with
  | nil => rfl
  | cons a l ih =>
    rw [stableSortBy_cons, stableSortBy_cons]
    have ih' := ih (fun z hz => hl z (List.mem_cons_of_mem _ hz))
    rw [ih']
    exact insertIssue_congr key1 key2 a _ (hl a (List.mem_cons_self _ _))
      (fun y hy => hl y (List.mem_cons_of_mem _ ((mem_stableSortBy key2 y l).mp hy)))

/-- An issue matching the dispatcher's query filter has a set (non-zero)
priority: the filter always carries `priority: { neq: 0 }`. -/
theorem matchesFilter_priority_ne_zero (cfg : Config) (i : Issue)
    (h : matchesFilter (buildFilter cfg) i = true) : i.priority ≠ 0 := by
  intro h0
  simp [matchesFilter, buildFilter, h0] at h

/-! ## Claim C1: priority selection -/

/-- C1: for every non-empty fetched batch (a batch whose issues all
match the dispatcher's query filter, in particular `priority ≠ 0`),
selection returns some issue, which is a member of the batch, has
minimal priority ordinal (so it never returns a lower-priority issue
when a higher-priority one exists — in particular ordinal 1 if present,
else 2, else 3, else 4), is also minimal for the spec's 0-as-5 sort
key, equals the head of the batch stable-sorted by the spec's 0-as-5
key, and is the first batch element attaining the minimal priority
(ties broken by tracker order). -/
theorem getHighestPriorityTask_spec (cfg : Config) (batch : List Issue)
    (hne : batch ≠ [])
    (hfetched : ∀ i ∈ batch, matchesFilter (buildFilter cfg) i = true) :
    ∃ x, getHighestPriorityTask batch = some x ∧
      x ∈ batch ∧
      (∀ y ∈ batch, x.priority ≤ y.priority) ∧
      (∀ y ∈ batch, specSortKey x ≤ specSortKey y) ∧
      getHighestPriorityTask batch = (stableSortBy specSortKey batch).head? ∧
      batch.find? (fun y => decide (y.priority ≤ x.priority)) = some x ∧
      (∀ p : Nat, (∃ i ∈ batch, i.priority = p) → x.priority ≤ p) := by
  have hkeys : ∀ i ∈ batch, priorityKey i = specSortKey i := by
    intro i hi
    have hne0 := matchesFilter_priority_ne_zero cfg i (hfetched i hi)
    simp [priorityKey, specSortKey, hne0]
  have hbe : batch.isEmpty = false := by
    cases batch with
    | nil => exact absurd rfl hne
    | cons a l => rfl
  have hget : getHighestPriorityTask batch = firstMinBy priorityKey batch := by
    simp [getHighestPriorityTask, hbe, head?_stableSortBy]
  rcases hfm : firstMinBy priorityKey batch with _ | x
  · exact absurd ((firstMinBy_eq_none_iff _ _).mp hfm) hne
  obtain ⟨hmem, hmin⟩ := firstMinBy_mem_min priorityKey batch x hfm
  refine ⟨x, by rw [hget, hfm], hmem, ?_, ?_, ?_, ?_, ?_⟩
  · intro y hy
    exact hmin y hy
  · intro y hy
    have hx := hkeys x hmem
    have hy' := hkeys y hy
    rw [← hx, ← hy']
    exact hmin y hy
  · rw [hget, hfm, ← stableSortBy_congr priorityKey specSortKey batch hkeys,
      head?_stableSortBy, hfm]
  · have hfind := firstMinBy_find? priorityKey batch x hfm
    simpa [priorityKey] using hfind
  · rintro p ⟨i, hi, rfl⟩
    exact hmin i hi

/-- A valid sample configuration (all required values set, no
allow-lists). -/
def sampleConfig : Config :=
  { LINEAR_API_KEY := "lin-key"
    SLACK_USER_TOKEN := "xoxp-token"
    SLACK_CHANNEL_ID := "C123"
    CLAUDE_USER_ID := "U456"
    LINEAR_PROJECT_IDS := []
    LINEAR_TEAM_KEYS := [] }

/-- Sample eligible issue of priority 2. -/
def issueA : Issue :=
  { id := "idA", identifier := "ENG-1", title := "Task A", description := none
    priority := 2, url := "https://linear.app/x/ENG-1", branchName := "eng-1-task-a"
    stateType := "unstarted", assignee := none, project := none, team := none }

/-- Sample eligible issue of priority 1. -/
def issueB : Issue :=
  { id := "idB", identifier := "ENG-2", title := "Task B", description := none
    priority := 1, url := "https://linear.app/x/ENG-2", branchName := "eng-2-task-b"
    stateType := "started", assignee := none, project := none, team := none }

/-- Sample eligible issue of priority 3. -/
def issueC : Issue :=
  { id := "idC", identifier := "ENG-3", title := "Task C", description := none
    priority := 3, url := "https://linear.app/x/ENG-3", branchName := "eng-3-task-c"
    stateType := "backlog", assignee := none, project := none, team := none }

/-- A sample fetched batch with distinct explicit priorities 2, 1, 3. -/
def sampleBatch : List Issue := [issueA, issueB, issueC]

/-- Witness for C1 at the concrete batch `[priority 2, priority 1,
priority 3]`. -/
theorem getHighestPriorityTask_spec_witness :
    ∃ x, getHighestPriorityTask sampleBatch = some x ∧
      x ∈ sampleBatch ∧
      (∀ y ∈ sampleBatch, x.priority ≤ y.priority) ∧
      (∀ y ∈ sampleBatch, specSortKey x ≤ specSortKey y) ∧
      getHighestPriorityTask sampleBatch = (stableSortBy specSortKey sampleBatch).head? ∧
      sampleBatch.find? (fun y => decide (y.priority ≤ x.priority)) = some x ∧
      (∀ p : Nat, (∃ i ∈ sampleBatch, i.priority = p) → x.priority ≤ p) :=
  getHighestPriorityTask_spec sampleConfig sampleBatch (by decide) (by decide)

/-! ## Lemmas about message composition -/

/-- The project qualifier of the composed message. -/
def projectInfoStr (i : Issue) : String :=
  match i.project with
  | some p => " in project \"" ++ p.name ++ "\""
  | none => ""

/-- The team qualifier of the composed message. -/
def teamInfoStr (i : Issue) : String :=
  match i.team with
  | some t => " [" ++ t.key ++ "]"
  | none => ""

/-- The description block of the composed message (empty when the
description is absent or the empty string). -/
def descBlock (i : Issue) : String :=
  match i.description with
  | some d =>
    if d != "" then
      "\n\n" ++ (if jsLength d > maxDescLength then jsTake d maxDescLength ++ "..." else d)
    else ""
  | none => ""

theorem messageHeader_eq (u : String) (i : Issue) :
    messageHeader u i =
      "<@" ++ u ++ ">" ++ projectInfoStr i ++ teamInfoStr i ++
        ", work on " ++ i.identifier ++ ": " ++ i.title := rfl

theorem jsLength_append (s t : String) : jsLength (s ++ t) = jsLength s + jsLength t := by
  simp [jsLength, String.data_append]

theorem jsLength_mk (l : List Char) : jsLength (String.mk l) = l.length := rfl

theorem formatSlackMessage_eq (u : String) (i : Issue) :
    formatSlackMessage u i = messageHeader u i ++ descBlock i ++ messageFooter i := by
  rcases hd : i.description with _ | d
  · simp only [formatSlackMessage, messageHeader, messageFooter, descBlock, hd,
      String.append_empty, String.append_assoc]
  · by_cases he : d = ""
    · subst he
      simp only [formatSlackMessage, messageHeader, messageFooter, descBlock, hd,
        bne_self_eq_false, Bool.false_eq_true, if_false, String.append_empty,
        String.append_assoc]
    · have hbe : (d != "") = true := by simpa using he
      by_cases hl : jsLength d > maxDescLength
      · simp only [formatSlackMessage, messageHeader, messageFooter, descBlock, hd, hbe,
          if_true, if_pos hl, String.append_assoc]
      · simp only [formatSlackMessage, messageHeader, messageFooter, descBlock, hd, hbe,
          if_true, if_neg hl, String.append_assoc]

/-- The composed message contains the issue's title as a contiguous
substring. -/
theorem formatSlackMessage_title_decomp (u : String) (i : Issue) :
    ∃ a b, formatSlackMessage u i = a ++ i.title ++ b := by
  refine ⟨"<@" ++ u ++ ">" ++ projectInfoStr i ++ teamInfoStr i ++ ", work on " ++
    i.identifier ++ ": ", descBlock i ++ messageFooter i, ?_⟩
  rw [formatSlackMessage_eq, messageHeader_eq]
  simp only [String.append_assoc]

/-! ## Claim C6: description truncation -/

/-- C6: if the issue's description has length strictly greater than the
fixed maximum (2000), the composed message carries exactly the first
2000 characters of the description followed by the ellipsis marker; a
(non-empty) description of length at most 2000 appears unmodified. -/
theorem formatSlackMessage_truncation (u : String) (i : Issue) (d : String)
    (hd : i.description = some d) :
    (jsLength d > maxDescLength →
      formatSlackMessage u i =
        messageHeader u i ++ "\n\n" ++ (jsTake d maxDescLength ++ "...") ++ messageFooter i) ∧
    (jsLength d ≤ maxDescLength → d ≠ "" →
      formatSlackMessage u i = messageHeader u i ++ "\n\n" ++ d ++ messageFooter i) := by
  constructor
  · intro hl
    have he : d ≠ "" := by
      intro h0
      subst h0
      have : jsLength "" = 0 := rfl
      omega
    have hbe : (d != "") = true := by simpa using he
    rw [formatSlackMessage_eq]
    simp only [descBlock, hd, hbe, if_true, if_pos hl, String.append_assoc]
  · intro hl he
    have hbe : (d != "") = true := by simpa using he
    have hnl : ¬ jsLength d > maxDescLength := Nat.not_lt.mpr hl
    rw [formatSlackMessage_eq]
    simp only [descBlock, hd, hbe, if_true, if_neg hnl, String.append_assoc]

/-- A description of 2001 characters (strictly above the cap). -/
def longDescription : String := String.mk (List.replicate 2001 'a')

/-- Sample issue carrying the 2001-character description. -/
def issueLongDesc : Issue := { issueA with description := some longDescription }

/-- Witness for C6 at a concrete 2001-character description. -/
theorem formatSlackMessage_truncation_witness :
    jsLength longDescription > maxDescLength ∧
    formatSlackMessage "U456" issueLongDesc =
      messageHeader "U456" issueLongDesc ++ "\n\n" ++
        (jsTake longDescription maxDescLength ++ "...") ++ messageFooter issueLongDesc :=
  ⟨by simp only [longDescription, jsLength_mk, List.length_replicate, maxDescLength]; omega,
   (formatSlackMessage_truncation "U456" issueLongDesc longDescription rfl).1
     (by simp only [longDescription, jsLength_mk, List.length_replicate, maxDescLength]; omega)⟩

/-! ## Claim C7: message structure (mention, identifier, title, branch name, no URL) -/

/-- The concrete issue of the specification's worked example (branch
name "eng-42-fix-login-bug", URL "https://linear.app/x/ENG-42"). -/
def specIssue : Issue :=
  { id := "id42", identifier := "ENG-42", title := "Fix login bug", description := none
    priority := 2, url := "https://linear.app/x/ENG-42", branchName := "eng-42-fix-login-bug"
    stateType := "unstarted", assignee := none
    project := some { id := "p1", name := "Core" }
    team := some { key := "ENG", name := "Engineering" } }

set_option maxRecDepth 40000 in
/-- C7: the composed message begins with the at-mention of the
assistant account, contains the issue's identifier and title, ends with
the instruction carrying the issue's exact branch-name string, and
never includes the issue's URL: the composer is independent of the
`url` field, and on the spec's concrete example the URL is not a
substring of the message while the branch name is. -/
theorem formatSlackMessage_structure (u : String) (i : Issue) :
    (∃ rest, formatSlackMessage u i = "<@" ++ u ++ ">" ++ rest) ∧
    (∃ a b, formatSlackMessage u i = a ++ i.identifier ++ b) ∧
    (∃ a b, formatSlackMessage u i = a ++ i.title ++ b) ∧
    (∃ a, formatSlackMessage u i =
      a ++ ("\n\nIMPORTANT: You MUST name the git branch exactly: " ++ i.branchName)) ∧
    (∀ url1 url2 : String,
      formatSlackMessage u { i with url := url1 } = formatSlackMessage u { i with url := url2 }) ∧
    (¬ (specIssue.url.data <:+: (formatSlackMessage "U456" specIssue).data)) ∧
    (specIssue.branchName.data <:+: (formatSlackMessage "U456" specIssue).data) := by
  refine ⟨?_, ?_, formatSlackMessage_title_decomp u i, ?_, ?_, by decide, by decide⟩
  · refine ⟨projectInfoStr i ++ teamInfoStr i ++ ", work on " ++ i.identifier ++ ": " ++
      i.title ++ descBlock i ++ messageFooter i, ?_⟩
    rw [formatSlackMessage_eq, messageHeader_eq]
    simp only [String.append_assoc]
  · refine ⟨"<@" ++ u ++ ">" ++ projectInfoStr i ++ teamInfoStr i ++ ", work on ",
      ": " ++ i.title ++ descBlock i ++ messageFooter i, ?_⟩
    rw [formatSlackMessage_eq, messageHeader_eq]
    simp only [String.append_assoc]
  · refine ⟨messageHeader u i ++ descBlock i, ?_⟩
    rw [formatSlackMessage_eq]
    simp only [messageFooter, String.append_assoc]
  · intro url1 url2
    rfl

/-- Witness for C7 at the spec example issue. -/
theorem formatSlackMessage_structure_witness :
    (∃ rest, formatSlackMessage "U456" specIssue = "<@" ++ "U456" ++ ">" ++ rest) ∧
    (∃ a b, formatSlackMessage "U456" specIssue = a ++ specIssue.identifier ++ b) ∧
    (∃ a b, formatSlackMessage "U456" specIssue = a ++ specIssue.title ++ b) ∧
    (∃ a, formatSlackMessage "U456" specIssue =
      a ++ ("\n\nIMPORTANT: You MUST name the git branch exactly: " ++ specIssue.branchName)) ∧
    (∀ url1 url2 : String,
      formatSlackMessage "U456" { specIssue with url := url1 } =
        formatSlackMessage "U456" { specIssue with url := url2 }) ∧
    (¬ (specIssue.url.data <:+: (formatSlackMessage "U456" specIssue).data)) ∧
    (specIssue.branchName.data <:+: (formatSlackMessage "U456" specIssue).data) :=
  formatSlackMessage_structure "U456" specIssue

/-! ## Claim C8: message length -/

/-- The description block never exceeds 2005 characters (separator plus
truncated description plus ellipsis). -/
theorem descBlock_length_le (i : Issue) : jsLength (descBlock i) ≤ 2005 := by
  rcases hd : i.description with _ | d
  · simp only [descBlock, hd]
    decide
  · by_cases he : d = ""
    · subst he
      simp only [descBlock, hd]
      decide
    · have hbe : (d != "") = true := by simpa using he
      by_cases hl : jsLength d > maxDescLength
      · simp only [descBlock, hd, hbe, if_true, if_pos hl, jsLength_append]
        have h1 : jsLength (jsTake d maxDescLength) ≤ 2000 := by
          simp only [jsTake, jsLength_mk, List.length_take, maxDescLength]
          exact inf_le_left
        have h2 : jsLength "\n\n" = 2 := rfl
        have h3 : jsLength "..." = 3 := rfl
        omega
      · simp only [descBlock, hd, hbe, if_true, if_neg hl, jsLength_append]
        have h2 : jsLength "\n\n" = 2 := rfl
        have h3 : jsLength d ≤ 2000 := by
          have := Nat.not_lt.mp hl
          simpa [maxDescLength] using this
        omega

/-- Length of the project qualifier. -/
theorem projectInfoStr_length_le (i : Issue) :
    jsLength (projectInfoStr i) ≤ 14 +
      (match i.project with | some p => jsLength p.name | none => 0) := by
  rcases hp : i.project with _ | p
  · simp only [projectInfoStr, hp]
    decide
  · simp only [projectInfoStr, hp, jsLength_append]
    have h1 : jsLength " in project \"" = 13 := rfl
    have h2 : jsLength "\"" = 1 := rfl
    omega

/-- Length of the team qualifier. -/
theorem teamInfoStr_length_le (i : Issue) :
    jsLength (teamInfoStr i) ≤ 3 +
      (match i.team with | some t => jsLength t.key | none => 0) := by
  rcases ht : i.team with _ | t
  · simp only [teamInfoStr, ht]
    decide
  · simp only [teamInfoStr, ht, jsLength_append]
    have h1 : jsLength " [" = 2 := rfl
    have h2 : jsLength "]" = 1 := rfl
    omega

/-- C8 counterexample: the claim "there exists a fixed bound on the
length of every composed message" is false — the title (like the
identifier and branch name) is never truncated, so a title of length
B + 1 defeats any proposed bound B. -/
theorem formatSlackMessage_no_uniform_bound :
    ¬ ∃ B : Nat, ∀ (u : String) (i : Issue), jsLength (formatSlackMessage u i) ≤ B := by
  rintro ⟨B, hB⟩
  obtain ⟨a, b, hab⟩ := formatSlackMessage_title_decomp ""
    { issueA with title := String.mk (List.replicate (B + 1) 'x') }
  have h := hB "" { issueA with title := String.mk (List.replicate (B + 1) 'x') }
  rw [hab] at h
  simp only [jsLength_append] at h
  have ht : jsLength (String.mk (List.replicate (B + 1) 'x')) = B + 1 := by
    rw [jsLength_mk, List.length_replicate]
  omega

/-- C8 amended: the truncation rule bounds only the description's
contribution (at most 2005 characters); the whole message is bounded by
a constant plus the lengths of the mention identifier, issue
identifier, title, project name, team key and branch name — no bound
uniform in the issue exists. -/
theorem formatSlackMessage_length_bound (u : String) (i : Issue) :
    jsLength (formatSlackMessage u i) ≤
      3000 + jsLength u + jsLength i.identifier + jsLength i.title +
        (match i.project with | some p => jsLength p.name | none => 0) +
        (match i.team with | some t => jsLength t.key | none => 0) +
        jsLength i.branchName := by
  rw [formatSlackMessage_eq, messageHeader_eq]
  simp only [messageFooter, jsLength_append]
  have hp := projectInfoStr_length_le i
  have ht := teamInfoStr_length_le i
  have hdb := descBlock_length_le i
  have l1 : jsLength "<@" ≤ 2 := by decide
  have l2 : jsLength ">" ≤ 1 := by decide
  have l3 : jsLength ", work on " ≤ 10 := by decide
  have l4 : jsLength ": " ≤ 2 := by decide
  have l5 : jsLength "\n\nIMPORTANT: You MUST name the git branch exactly: " ≤ 60 := by decide
  omega

/-- Witness instance for the amended C8 at the spec example issue. -/
theorem formatSlackMessage_length_bound_witness :
    jsLength (formatSlackMessage "U456" specIssue) ≤
      3000 + jsLength "U456" + jsLength specIssue.identifier + jsLength specIssue.title +
        (match specIssue.project with | some p => jsLength p.name | none => 0) +
        (match specIssue.team with | some t => jsLength t.key | none => 0) +
        jsLength specIssue.branchName :=
  formatSlackMessage_length_bound "U456" specIssue

/-! ## Claim C10: empty-string description behaves as absent -/

/-- C10: an issue whose description is present but equal to the empty
string composes to exactly the same message as the same issue with no
description: the description block is omitted for any falsy
description. -/
theorem formatSlackMessage_empty_description (u : String) (i : Issue)
    (h : i.description = some "") :
    formatSlackMessage u i = formatSlackMessage u { i with description := none } := by
  simp only [formatSlackMessage, h, bne_self_eq_false, Bool.false_eq_true, if_false]

/-- Sample issue with an empty-string description. -/
def issueEmptyDesc : Issue := { issueA with description := some "" }

/-- Witness for C10 at a concrete issue with `description = some ""`. -/
theorem formatSlackMessage_empty_description_witness :
    formatSlackMessage "U456" issueEmptyDesc =
      formatSlackMessage "U456" { issueEmptyDesc with description := none } :=
  formatSlackMessage_empty_description "U456" issueEmptyDesc rfl

/-! ## Lemmas about the acknowledgment step -/

/-- The acknowledgment step never posts to chat, and when it succeeds
its trace contains exactly one comment creation (carrying the dispatch
marker) among its post/comment events. -/
theorem markIssueAsDispatched_shape (w : World) (issueId : String) :
    ∃ ext lg2 out,
      markIssueAsDispatched w issueId = (ext, lg2, out) ∧
      (∀ e ∈ ext, e.isChatPost = false) ∧
      (out = Except.ok () →
        ext.filter (fun e => e.isChatPost || e.isComment) =
          [Event.createComment issueId dispatchMarker]) := by
  obtain ⟨batch, qOk, rOk, sOk, riOk, rtOk, dTeam, stOk, upOk, cOk⟩ := w
  cases riOk with
  | false =>
    exact ⟨[Event.readIssue issueId], ["Marking issue as In Progress..."],
      Except.error "TrackerApiError", rfl, by simp [Event.isChatPost],
      fun h => Except.noConfusion h⟩
  | true =>
    cases rtOk with
    | false =>
      exact ⟨[Event.readIssue issueId, Event.readIssueTeam issueId],
        ["Marking issue as In Progress..."], Except.error "TrackerApiError", rfl,
        by simp [Event.isChatPost], fun h => Except.noConfusion h⟩
    | true =>
      cases dTeam with
      | none =>
        cases cOk with
        | false =>
          exact ⟨[Event.readIssue issueId, Event.readIssueTeam issueId,
            Event.createComment issueId dispatchMarker],
            ["Marking issue as In Progress..."], Except.error "TrackerApiError", rfl,
            by simp [Event.isChatPost], fun h => Except.noConfusion h⟩
        | true =>
          exact ⟨[Event.readIssue issueId, Event.readIssueTeam issueId,
            Event.createComment issueId dispatchMarker],
            ["Marking issue as In Progress...", "Dispatch comment added to Linear issue"],
            Except.ok (), rfl, by simp [Event.isChatPost], fun _ => rfl⟩
      | some team =>
        cases stOk with
        | false =>
          exact ⟨[Event.readIssue issueId, Event.readIssueTeam issueId,
            Event.readTeamStates team.id],
            ["Marking issue as In Progress..."], Except.error "TrackerApiError", rfl,
            by simp [Event.isChatPost], fun h => Except.noConfusion h⟩
        | true =>
          rcases hip : inProgressStateOf team with _ | st
          · cases cOk with
            | false =>
              refine ⟨[Event.readIssue issueId, Event.readIssueTeam issueId,
                Event.readTeamStates team.id, Event.createComment issueId dispatchMarker],
                ["Marking issue as In Progress..."], Except.error "TrackerApiError", ?_,
                by simp [Event.isChatPost], fun h => Except.noConfusion h⟩
              simp [markIssueAsDispatched, hip]
            | true =>
              refine ⟨[Event.readIssue issueId, Event.readIssueTeam issueId,
                Event.readTeamStates team.id, Event.createComment issueId dispatchMarker],
                ["Marking issue as In Progress...", "Dispatch comment added to Linear issue"],
                Except.ok (), ?_, by simp [Event.isChatPost], fun _ => rfl⟩
              simp [markIssueAsDispatched, hip]
          · cases upOk with
            | false =>
              refine ⟨[Event.readIssue issueId, Event.readIssueTeam issueId,
                Event.readTeamStates team.id, Event.updateIssue issueId st.id],
                ["Marking issue as In Progress..."], Except.error "TrackerApiError", ?_,
                by simp [Event.isChatPost], fun h => Except.noConfusion h⟩
              simp [markIssueAsDispatched, hip]
            | true =>
              cases cOk with
              | false =>
                refine ⟨[Event.readIssue issueId, Event.readIssueTeam issueId,
                  Event.readTeamStates team.id, Event.updateIssue issueId st.id,
                  Event.createComment issueId dispatchMarker],
                  ["Marking issue as In Progress...", "Issue state updated to: " ++ st.name],
                  Except.error "TrackerApiError", ?_,
                  by simp [Event.isChatPost], fun h => Except.noConfusion h⟩
                simp [markIssueAsDispatched, hip]
              | true =>
                refine ⟨[Event.readIssue issueId, Event.readIssueTeam issueId,
                  Event.readTeamStates team.id, Event.updateIssue issueId st.id,
                  Event.createComment issueId dispatchMarker],
                  ["Marking issue as In Progress...", "Issue state updated to: " ++ st.name,
                   "Dispatch comment added to Linear issue"],
                  Except.ok (), ?_, by simp [Event.isChatPost], fun _ => rfl⟩
                simp [markIssueAsDispatched, hip]

/-! ## Claim C2: chat post precedes all tracker writes -/

/-- C2: in every run that selects a task, no tracker write occurs
before the first chat post; if the chat post fails, the trace contains
no tracker write at all; and on a fully successful run the post/comment
events of the trace are exactly one chat post (carrying the composed
message) followed by exactly one comment creation whose body contains
the fixed dispatch marker. -/
theorem dispatch_chat_then_ack (cfg : Config) (w : World) (task : Issue)
    (hsel : getHighestPriorityTask w.batch = some task) :
    noWriteBeforePost (dispatch cfg w).trace = true ∧
    (w.slackOk = false → ∀ e ∈ (dispatch cfg w).trace, e.isWrite = false) ∧
    ((dispatch cfg w).outcome = Except.ok () →
      (dispatch cfg w).trace.filter (fun e => e.isChatPost || e.isComment) =
        [Event.chatPost cfg.SLACK_CHANNEL_ID (formatSlackMessage cfg.CLAUDE_USER_ID task),
         Event.createComment task.id dispatchMarker] ∧
      (∃ a b, dispatchMarker = a ++ dispatchMarker ++ b)) := by
  rcases hv : validateConfig cfg with m | u
  · simp [dispatch, hv, noWriteBeforePost]
  · cases hq : w.queryOk with
    | false =>
      simp [dispatch, hv, hq, noWriteBeforePost, Event.isChatPost, Event.isWrite]
    | true =>
      cases hr : w.resolveOk with
      | false =>
        simp [dispatch, hv, hq, hsel, hr, noWriteBeforePost, Event.isChatPost, Event.isWrite]
      | true =>
        cases hs : w.slackOk with
        | false =>
          simp [dispatch, postToSlack, hv, hq, hsel, hr, hs, noWriteBeforePost,
            Event.isChatPost, Event.isWrite]
        | true =>
          obtain ⟨ext, lg2, out, hmark, hnp, hfil⟩ := markIssueAsDispatched_shape w task.id
          rcases out with e | uo
          · simp [dispatch, postToSlack, hv, hq, hsel, hr, hs, hmark, noWriteBeforePost,
              Event.isChatPost, Event.isWrite]
          · have hfil' := hfil rfl
            refine ⟨?_, ?_, ?_⟩
            · simp [dispatch, postToSlack, hv, hq, hsel, hr, hs, hmark, noWriteBeforePost,
                Event.isChatPost, Event.isWrite]
            · intro hcontra
              exact absurd hcontra (by simp)
            · intro _
              refine ⟨?_, "", "", by simp [String.append_empty, String.empty_append]⟩
              have htr2 : (dispatch cfg w).trace =
                  [Event.issuesQuery (buildFilter cfg), Event.resolveProject task.id,
                   Event.resolveTeam task.id,
                   Event.chatPost cfg.SLACK_CHANNEL_ID
                     (formatSlackMessage cfg.CLAUDE_USER_ID task)] ++ ext := by
                simp [dispatch, postToSlack, hv, hq, hsel, hr, hs, hmark]
              rw [htr2, List.filter_append, hfil']
              rfl

/-- A world in which the tracker returns the single sample issue and
every external call succeeds (the re-read issue has no team). -/
def successWorld : World :=
  { batch := [issueA], queryOk := true, resolveOk := true, slackOk := true,
    readIssueOk := true, readTeamOk := true, dispatchTeam := none, statesOk := true,
    updateOk := true, commentOk := true }

/-- Witness for C2 at a concrete fully successful run. -/
theorem dispatch_chat_then_ack_witness :
    noWriteBeforePost (dispatch sampleConfig successWorld).trace = true ∧
    (successWorld.slackOk = false →
      ∀ e ∈ (dispatch sampleConfig successWorld).trace, e.isWrite = false) ∧
    ((dispatch sampleConfig successWorld).outcome = Except.ok () →
      (dispatch sampleConfig successWorld).trace.filter (fun e => e.isChatPost || e.isComment) =
        [Event.chatPost sampleConfig.SLACK_CHANNEL_ID
          (formatSlackMessage sampleConfig.CLAUDE_USER_ID issueA),
         Event.createComment issueA.id dispatchMarker] ∧
      (∃ a b, dispatchMarker = a ++ dispatchMarker ++ b)) :=
  dispatch_chat_then_ack sampleConfig successWorld issueA (by decide)

/-! ## Claim C3: failing state transition versus comment creation -/

/-- A world where the acknowledgment-phase re-read finds a team with an
"In Progress" started state, and the state-update call fails while
everything else succeeds. -/
def updateFailWorld : World :=
  { batch := [], queryOk := true, resolveOk := true, slackOk := true,
    readIssueOk := true, readTeamOk := true
    dispatchTeam := some
      { id := "team1"
        states := [{ id := "st1", name := "In Progress", stype := "started" }] }
    statesOk := true, updateOk := false, commentOk := true }

/-- C3 counterexample: with the state-update call failing, the
acknowledgment step attempts the update and then aborts — the
comment-creation call is NOT performed, refuting the claim that a
failed transition does not prevent the dispatch comment. -/
theorem markIssueAsDispatched_update_failure_counterexample :
    Event.updateIssue "I1" "st1" ∈ (markIssueAsDispatched updateFailWorld "I1").1 ∧
    (∀ b, Event.createComment "I1" b ∉ (markIssueAsDispatched updateFailWorld "I1").1) ∧
    (markIssueAsDispatched updateFailWorld "I1").2.2 = Except.error "TrackerApiError" := by
  have hm : markIssueAsDispatched updateFailWorld "I1" =
      ([Event.readIssue "I1", Event.readIssueTeam "I1", Event.readTeamStates "team1",
        Event.updateIssue "I1" "st1"],
       ["Marking issue as In Progress..."], Except.error "TrackerApiError") := by decide
  refine ⟨by rw [hm]; decide, ?_, by rw [hm]⟩
  intro b
  rw [hm]
  simp

/-- C3 amended: in the code as written there is no error isolation
between the two acknowledgment writes: whenever the workflow-state
update is attempted and fails, the error propagates, the run aborts,
and the comment-creation call is NOT performed. -/
theorem markIssueAsDispatched_update_failure_blocks_comment (w : World) (issueId : String)
    (t : TeamWithStates) (st : WorkflowState)
    (h1 : w.readIssueOk = true) (h2 : w.readTeamOk = true)
    (h3 : w.dispatchTeam = some t) (h4 : w.statesOk = true)
    (h5 : inProgressStateOf t = some st) (h6 : w.updateOk = false) :
    markIssueAsDispatched w issueId =
      ([Event.readIssue issueId, Event.readIssueTeam issueId, Event.readTeamStates t.id,
        Event.updateIssue issueId st.id],
       ["Marking issue as In Progress..."], Except.error "TrackerApiError") ∧
    ∀ b, Event.createComment issueId b ∉ (markIssueAsDispatched w issueId).1 := by
  have hm : markIssueAsDispatched w issueId =
      ([Event.readIssue issueId, Event.readIssueTeam issueId, Event.readTeamStates t.id,
        Event.updateIssue issueId st.id],
       ["Marking issue as In Progress..."], Except.error "TrackerApiError") := by
    simp [markIssueAsDispatched, h1, h2, h3, h4, h5, h6]
  refine ⟨hm, ?_⟩
  intro b
  rw [hm]
  simp

/-- Witness for the amended C3 at the concrete failing world. -/
theorem markIssueAsDispatched_update_failure_witness :
    markIssueAsDispatched updateFailWorld "I1" =
      ([Event.readIssue "I1", Event.readIssueTeam "I1", Event.readTeamStates "team1",
        Event.updateIssue "I1" "st1"],
       ["Marking issue as In Progress..."], Except.error "TrackerApiError") ∧
    ∀ b, Event.createComment "I1" b ∉ (markIssueAsDispatched updateFailWorld "I1").1 :=
  markIssueAsDispatched_update_failure_blocks_comment updateFailWorld "I1"
    { id := "team1", states := [{ id := "st1", name := "In Progress", stype := "started" }] }
    { id := "st1", name := "In Progress", stype := "started" }
    rfl rfl rfl rfl (by decide) rfl

/-! ## Claim C4: empty eligible batch -/

/-- C4: when the tracker query succeeds but returns no issues, the run
reports "no matching tasks", performs no chat post and no tracker write
(the only event is the read-only query), and the process exits
successfully with status 0. -/
theorem dispatch_empty_batch (cfg : Config) (w : World)
    (hv : validateConfig cfg = Except.ok ()) (hq : w.queryOk = true) (hb : w.batch = []) :
    (dispatch cfg w).outcome = Except.ok () ∧
    exitCode (dispatch cfg w) = 0 ∧
    "No matching tasks found in Linear" ∈ (dispatch cfg w).logs ∧
    "\nNo tasks to dispatch." ∈ (dispatch cfg w).logs ∧
    (dispatch cfg w).trace = [Event.issuesQuery (buildFilter cfg)] ∧
    (∀ e ∈ (dispatch cfg w).trace, e.isChatPost = false ∧ e.isWrite = false) := by
  have hsel : getHighestPriorityTask w.batch = none := by rw [hb]; rfl
  simp [dispatch, hv, hq, hsel, exitCode, Event.isChatPost, Event.isWrite]

/-- A world whose tracker query returns the empty batch. -/
def emptyBatchWorld : World :=
  { batch := [], queryOk := true, resolveOk := true, slackOk := true,
    readIssueOk := true, readTeamOk := true, dispatchTeam := none, statesOk := true,
    updateOk := true, commentOk := true }

/-- Witness for C4 at a concrete empty-batch run. -/
theorem dispatch_empty_batch_witness :
    (dispatch sampleConfig emptyBatchWorld).outcome = Except.ok () ∧
    exitCode (dispatch sampleConfig emptyBatchWorld) = 0 ∧
    "No matching tasks found in Linear" ∈ (dispatch sampleConfig emptyBatchWorld).logs ∧
    "\nNo tasks to dispatch." ∈ (dispatch sampleConfig emptyBatchWorld).logs ∧
    (dispatch sampleConfig emptyBatchWorld).trace =
      [Event.issuesQuery (buildFilter sampleConfig)] ∧
    (∀ e ∈ (dispatch sampleConfig emptyBatchWorld).trace,
      e.isChatPost = false ∧ e.isWrite = false) :=
  dispatch_empty_batch sampleConfig emptyBatchWorld (by decide) rfl rfl

/-! ## Claim C5: configuration validation -/

/-- C5: validation fails (throws) if and only if at least one required
value is empty; the missing-key list contains exactly the required keys
whose value is empty; the error message is the fixed heading followed
by exactly that list, comma-joined; and on a validation failure the run
makes no external call at all and reports the error. -/
theorem validateConfig_spec (cfg : Config) (w : World) :
    ((∃ m, validateConfig cfg = Except.error m) ↔
      ∃ k ∈ requiredConfigKeys, configValue cfg k = "") ∧
    (∀ k, k ∈ missingKeys cfg ↔ k ∈ requiredConfigKeys ∧ configValue cfg k = "") ∧
    (∀ m, validateConfig cfg = Except.error m →
      m = "Missing required environment variables: " ++
        String.intercalate ", " (missingKeys cfg)) ∧
    (∀ m, validateConfig cfg = Except.error m →
      (dispatch cfg w).trace = [] ∧ (dispatch cfg w).outcome = Except.error m) := by
  have hmem : ∀ k, k ∈ missingKeys cfg ↔ k ∈ requiredConfigKeys ∧ configValue cfg k = "" := by
    intro k
    simp [missingKeys, List.mem_filter]
  by_cases hm : missingKeys cfg = []
  · refine ⟨?_, hmem, ?_, ?_⟩
    · constructor
      · rintro ⟨m, hv⟩
        simp [validateConfig, hm] at hv
      · rintro ⟨k, hk, hval⟩
        have hkm : k ∈ missingKeys cfg := (hmem k).mpr ⟨hk, hval⟩
        rw [hm] at hkm
        simp at hkm
    · intro m hv
      simp [validateConfig, hm] at hv
    · intro m hv
      simp [validateConfig, hm] at hv
  · have hlen : 0 < (missingKeys cfg).length := List.length_pos.mpr hm
    have hv : validateConfig cfg =
        Except.error ("Missing required environment variables: " ++
          String.intercalate ", " (missingKeys cfg)) := by
      simp only [validateConfig]
      rw [if_pos hlen]
    refine ⟨?_, hmem, ?_, ?_⟩
    · constructor
      · rintro ⟨m, _⟩
        obtain ⟨k, hk⟩ := List.exists_mem_of_ne_nil _ hm
        exact ⟨k, ((hmem k).mp hk).1, ((hmem k).mp hk).2⟩
      · intro _
        exact ⟨_, hv⟩
    · intro m hvm
      rw [hv] at hvm
      injection hvm with h2
      exact h2.symm
    · intro m hvm
      exact ⟨by simp [dispatch, hvm], by simp [dispatch, hvm]⟩

/-- A configuration whose only empty required value is the chat
credential. -/
def missingTokenConfig : Config :=
  { LINEAR_API_KEY := "lin-key", SLACK_USER_TOKEN := "", SLACK_CHANNEL_ID := "C123",
    CLAUDE_USER_ID := "U456", LINEAR_PROJECT_IDS := [], LINEAR_TEAM_KEYS := [] }

/-- Witness for C5: with only the chat credential empty, validation
fails with a message naming exactly that key, and the run performs no
external call. -/
theorem validateConfig_spec_witness :
    missingKeys missingTokenConfig = ["SLACK_USER_TOKEN"] ∧
    validateConfig missingTokenConfig =
      Except.error "Missing required environment variables: SLACK_USER_TOKEN" ∧
    (dispatch missingTokenConfig emptyBatchWorld).trace = [] := by
  refine ⟨by decide, by decide, ?_⟩
  exact ((validateConfig_spec missingTokenConfig emptyBatchWorld).2.2.2
    "Missing required environment variables: SLACK_USER_TOKEN" (by decide)).1

/-! ## Claim C9: optional allow-lists and query filter clauses -/

theorem buildFilter_projectIds (cfg : Config) :
    ((buildFilter cfg).projectIds ≠ none ↔ cfg.LINEAR_PROJECT_IDS ≠ []) ∧
    ∀ ps, (buildFilter cfg).projectIds = some ps → ps = cfg.LINEAR_PROJECT_IDS := by
  by_cases h : cfg.LINEAR_PROJECT_IDS = []
  · constructor
    · simp [buildFilter, h]
    · intro ps hps
      simp [buildFilter, h] at hps
  · have hl : 0 < cfg.LINEAR_PROJECT_IDS.length := List.length_pos.mpr h
    constructor
    · simp [buildFilter, if_pos hl, h]
    · intro ps hps
      simp only [buildFilter] at hps
      rw [if_pos hl] at hps
      injection hps with h2
      exact h2.symm

theorem buildFilter_teamKeys (cfg : Config) :
    ((buildFilter cfg).teamKeys ≠ none ↔ cfg.LINEAR_TEAM_KEYS ≠ []) ∧
    ∀ ks, (buildFilter cfg).teamKeys = some ks → ks = cfg.LINEAR_TEAM_KEYS := by
  by_cases h : cfg.LINEAR_TEAM_KEYS = []
  · constructor
    · simp [buildFilter, h]
    · intro ks hks
      simp [buildFilter, h] at hks
  · have hl : 0 < cfg.LINEAR_TEAM_KEYS.length := List.length_pos.mpr h
    constructor
    · simp [buildFilter, if_pos hl, h]
    · intro ks hks
      simp only [buildFilter] at hks
      rw [if_pos hl] at hks
      injection hks with h2
      exact h2.symm

/-- C9: a list-valued setting parses to exactly the non-empty
comma-separated tokens (absent or empty settings yield the empty list),
and the query carries a project (resp. team) clause — equal to the
configured list — if and only if the parsed list is non-empty. -/
theorem parseListEnv_spec :
    (∀ (s : Option String) (t : String),
      t ∈ parseListEnv s ↔ ∃ str, s = some str ∧ t ∈ jsSplitComma str ∧ t ≠ "") ∧
    parseListEnv none = [] ∧
    parseListEnv (some "") = [] ∧
    (∀ cfg : Config,
      ((buildFilter cfg).projectIds ≠ none ↔ cfg.LINEAR_PROJECT_IDS ≠ []) ∧
      ((buildFilter cfg).teamKeys ≠ none ↔ cfg.LINEAR_TEAM_KEYS ≠ []) ∧
      (∀ ps, (buildFilter cfg).projectIds = some ps → ps = cfg.LINEAR_PROJECT_IDS) ∧
      (∀ ks, (buildFilter cfg).teamKeys = some ks → ks = cfg.LINEAR_TEAM_KEYS)) ∧
    (∀ e : Env,
      ((buildFilter (loadConfig e)).projectIds ≠ none ↔
        parseListEnv e.LINEAR_PROJECT_IDS ≠ []) ∧
      ((buildFilter (loadConfig e)).teamKeys ≠ none ↔
        parseListEnv e.LINEAR_TEAM_KEYS ≠ [])) := by
  refine ⟨?_, rfl, by decide, ?_, ?_⟩
  · intro s t
    cases s with
    | none => simp [parseListEnv]
    | some str => simp [parseListEnv, List.mem_filter]
  · intro cfg
    exact ⟨(buildFilter_projectIds cfg).1, (buildFilter_teamKeys cfg).1,
      (buildFilter_projectIds cfg).2, (buildFilter_teamKeys cfg).2⟩
  · intro e
    exact ⟨(buildFilter_projectIds (loadConfig e)).1, (buildFilter_teamKeys (loadConfig e)).1⟩

/-- Witness for C9: parsing a concrete list setting with an empty token
and checking the filter clause at the sample configuration. -/
theorem parseListEnv_spec_witness :
    parseListEnv (some "alpha,,beta") = ["alpha", "beta"] ∧
    ("alpha" ∈ parseListEnv (some "alpha,,beta") ↔
      ∃ str, (some "alpha,,beta" : Option String) = some str ∧
        "alpha" ∈ jsSplitComma str ∧ "alpha" ≠ "") ∧
    ((buildFilter sampleConfig).projectIds ≠ none ↔ sampleConfig.LINEAR_PROJECT_IDS ≠ []) :=
  ⟨by decide, parseListEnv_spec.1 (some "alpha,,beta") "alpha",
    (parseListEnv_spec.2.2.2.1 sampleConfig).1⟩

end ClaudeDispatcher
